import Mathlib

/-!
Verification of `babymonitor/audio_detection.py`.

Shallow embedding notes:
* Float sample values and timestamps are modelled as exact rationals (`ℚ`);
  every comparison performed by the code on the values appearing below is
  exact, so no rounding issue is in play.
* `compute_frame_energy` takes the square root of a mean of squares; the
  result is modelled in `ℝ` via `Real.sqrt`.
* Non-finite floats (NaN / ±Infinity) are modelled by dedicated constructors
  of the `Sample` type, mirroring the `np.isfinite` filter.
* The capture loop (`CryDetector.run`, lines 136-189 of the source) is
  modelled as a recursive function over the linearised sequence of inputs it
  observes: frames popped from the audio queue (each carrying the energy the
  pipeline computes for it and the wall-clock time at processing) and
  externally issued `pause()` / `resume()` calls, which the loop observes
  between iterations via the `_paused` flag.
* The `on_cry_callback` invocation at line 180 has no `try/except` around it:
  if the callback raises, the exception unwinds out of the `while` loop into
  the `except Exception` handler at line 185, which logs it, and the loop
  terminates.  This is modelled by the `crashed` flag and the `remaining`
  (unprocessed) inputs of `RunResult`.
-/

namespace BabyMonitor

/-- A float32 audio sample as seen by `compute_frame_energy`: either a finite
value (modelled exactly as a rational) or one of the non-finite floats that
`np.isfinite` rejects. -/
inductive Sample
  | val (x : ℚ)
  | nan
  | posInf
  | negInf
deriving DecidableEq

/-- `np.isfinite` on a single sample. -/
def Sample.isFinite : Sample → Bool
  | .val _ => true
  | _ => false

/-- `samples[np.isfinite(samples)]` (line 39): keep the finite values. -/
def finiteVals (samples : List Sample) : List ℚ :=
  samples.filterMap (fun s => match s with | .val x => some x | _ => none)

/-- `np.mean(samples * samples)` over a list of finite values. -/
def meanSquare (fs : List ℚ) : ℚ :=
  (fs.map (fun x => x * x)).sum / (fs.length : ℚ)

/-- `compute_frame_energy` (lines 34-42): empty input yields `0.0`; non-finite
samples are discarded; if nothing is left the result is `0.0`; otherwise the
RMS `sqrt(mean(samples * samples))`.  The Python function is total (never
raises), which the embedding reflects by being a total function. -/
noncomputable def compute_frame_energy (samples : List Sample) : ℝ :=
  if samples.length = 0 then 0
  else
    let fs := finiteVals samples
    if fs.length = 0 then 0
    else Real.sqrt ((meanSquare fs : ℚ) : ℝ)

/-- `np.iinfo(dtype).max` for a signed `w`-bit integer dtype. -/
def iinfo_max (w : ℕ) : ℤ := 2 ^ (w - 1) - 1

/-- `np.iinfo(dtype).min` for a signed `w`-bit integer dtype. -/
def iinfo_min (w : ℕ) : ℤ := -(2 ^ (w - 1))

/-- `normalise_audio` (lines 21-31) on an integer-dtype array of signed width
`w`: every sample is divided by `float(np.iinfo(dtype).max)`. -/
def normalise_audio (w : ℕ) (data : List ℤ) : List ℚ :=
  data.map (fun z => (z : ℚ) / ((iinfo_max w : ℤ) : ℚ))

/-- Detection parameters of `CryDetector.__init__` (lines 79-93). -/
structure Config where
  threshold : ℚ
  framesRequired : ℕ
  eventCooldown : ℚ
deriving DecidableEq

/-- The mutable detector state touched by the loop and the external controls:
`_paused`, `_cry_frame_count`, `_last_event_time`. -/
structure DetectorState where
  paused : Bool
  cryFrameCount : ℕ
  lastEventTime : ℚ
deriving DecidableEq

/-- `CryDetector.pause` (lines 97-100): sets `_paused = True` only. -/
def CryDetector.pause (st : DetectorState) : DetectorState :=
  { st with paused := true }

/-- `CryDetector.resume` (lines 102-105): sets `_paused = False` only. -/
def CryDetector.resume (st : DetectorState) : DetectorState :=
  { st with paused := false }

/-- One input observed by the capture loop, in linearisation order: a frame
popped from `_audio_queue` (carrying the energy `compute_frame_energy` yields
for it and the value of `time.time()` at that iteration), or an external
`pause()` / `resume()` call taking effect between iterations. -/
inductive LoopInput
  | frame (energy : ℚ) (now : ℚ)
  | pauseCmd
  | resumeCmd
deriving DecidableEq

/-- Outcome of running the loop body over a list of inputs.  `events` lists
the energies handed to `on_cry_callback`, in order.  `crashed = true` records
that the callback raised: the exception unwound to the `except` handler at
line 185 (so `run` itself still returned normally), and `remaining` holds the
inputs the loop never got to process. -/
structure RunResult where
  state : DetectorState
  events : List ℚ
  remaining : List LoopInput
  crashed : Bool
deriving DecidableEq

/-- The body of `CryDetector.run`'s `while` loop (lines 156-183), iterated
over a list of observed inputs.  A frame received while `_paused` is drained
from the queue and discarded (lines 162-165).  Otherwise lines 167-181 run:
the loudness test `energy >= threshold` updates `_cry_frame_count`; when the
count reaches `frames_required` the cooldown gate decides whether to fire,
and the count is reset at line 181 — a line that is skipped when the callback
raises, because the exception propagates immediately. -/
def CryDetector.run (cfg : Config) (cb : ℚ → Bool) :
    DetectorState → List LoopInput → RunResult
  | st, [] => ⟨st, [], [], false⟩
  | st, .pauseCmd :: rest => CryDetector.run cfg cb (CryDetector.pause st) rest
  | st, .resumeCmd :: rest => CryDetector.run cfg cb (CryDetector.resume st) rest
  | st, .frame energy now :: rest =>
    if st.paused then
      CryDetector.run cfg cb st rest
    else
      let count := if cfg.threshold ≤ energy then st.cryFrameCount + 1 else 0
      if cfg.framesRequired ≤ count then
        if cfg.eventCooldown ≤ now - st.lastEventTime then
          if cb energy then
            ⟨{ st with cryFrameCount := count, lastEventTime := now },
              [energy], rest, true⟩
          else
            let res := CryDetector.run cfg cb
              { st with cryFrameCount := 0, lastEventTime := now } rest
            { res with events := energy :: res.events }
        else
          CryDetector.run cfg cb { st with cryFrameCount := 0 } rest
      else
        CryDetector.run cfg cb { st with cryFrameCount := count } rest

/-! ### Helper lemmas about the energy computation -/

theorem sum_sq_nonneg (fs : List ℚ) : 0 ≤ (fs.map (fun x => x * x)).sum :=
  List.sum_nonneg (by
    intro a ha
    obtain ⟨x, _, rfl⟩ := List.mem_map.1 ha
    exact mul_self_nonneg x)

theorem sum_sq_eq_zero_iff (fs : List ℚ) :
    (fs.map (fun x => x * x)).sum = 0 ↔ ∀ x ∈ fs, x = 0 := by
  induction fs with
  | nil => simp
  | cons y ys ih =>
    simp only [List.map_cons, List.sum_cons, List.mem_cons]
    constructor
    · intro h
      have h2 : 0 ≤ (ys.map (fun x => x * x)).sum := sum_sq_nonneg ys
      have h1 : 0 ≤ y * y := mul_self_nonneg y
      have hy : y * y = 0 := by linarith
      have hsum : (ys.map (fun x => x * x)).sum = 0 := by linarith
      intro x hx
      rcases hx with rfl | hx
      · exact mul_self_eq_zero.1 hy
      · exact (ih.1 hsum) x hx
    · intro h
      have hy : y = 0 := h y (Or.inl rfl)
      have hsum : (ys.map (fun x => x * x)).sum = 0 :=
        ih.2 (fun x hx => h x (Or.inr hx))
      rw [hy, hsum]
      ring

theorem meanSquare_nonneg (fs : List ℚ) : 0 ≤ meanSquare fs :=
  div_nonneg (sum_sq_nonneg fs) (Nat.cast_nonneg _)

theorem meanSquare_eq_zero_iff (fs : List ℚ) (h : fs ≠ []) :
    meanSquare fs = 0 ↔ ∀ x ∈ fs, x = 0 := by
  have hlen : fs.length ≠ 0 := by
    simpa [List.length_eq_zero] using h
  have hn : (fs.length : ℚ) ≠ 0 := by exact_mod_cast hlen
  unfold meanSquare
  rw [div_eq_zero_iff]
  simp [hn, sum_sq_eq_zero_iff]

theorem mem_finiteVals (samples : List Sample) (x : ℚ) :
    x ∈ finiteVals samples ↔ Sample.val x ∈ samples := by
  simp only [finiteVals, List.mem_filterMap]
  constructor
  · rintro ⟨a, ha, hfa⟩
    cases a <;> simp_all
  · intro h
    exact ⟨Sample.val x, h, rfl⟩

theorem finiteVals_eq_nil (samples : List Sample)
    (h : ∀ s ∈ samples, s.isFinite = false) : finiteVals samples = [] := by
  induction samples with
  | nil => rfl
  | cons s rest ih =>
    have hs := h s (List.mem_cons_self s rest)
    have hrest := ih (fun a ha => h a (List.mem_cons_of_mem s ha))
    cases s <;> simp_all [finiteVals, Sample.isFinite]

theorem compute_frame_energy_nonneg (samples : List Sample) :
    0 ≤ compute_frame_energy samples := by
  unfold compute_frame_energy
  dsimp only
  split
  · exact le_refl 0
  · split
    · exact le_refl 0
    · exact Real.sqrt_nonneg _

theorem compute_frame_energy_nonfinite (samples : List Sample)
    (h : ∀ s ∈ samples, s.isFinite = false) :
    compute_frame_energy samples = 0 := by
  unfold compute_frame_energy
  dsimp only
  split
  · rfl
  · simp [finiteVals_eq_nil samples h]

theorem compute_frame_energy_eq_zero_iff (samples : List Sample)
    (hfin : ∀ s ∈ samples, s.isFinite = true) (hne : samples ≠ []) :
    compute_frame_energy samples = 0 ↔ ∀ s ∈ samples, s = Sample.val 0 := by
  have hlen : samples.length ≠ 0 := by simpa [List.length_eq_zero] using hne
  have hfs : finiteVals samples ≠ [] := by
    obtain ⟨s0, rest, rfl⟩ := List.exists_cons_of_ne_nil hne
    have h0 := hfin s0 (List.mem_cons_self _ _)
    cases s0 with
    | val x =>
      exact List.ne_nil_of_mem ((mem_finiteVals _ x).2 (List.mem_cons_self _ _))
    | nan => simp [Sample.isFinite] at h0
    | posInf => simp [Sample.isFinite] at h0
    | negInf => simp [Sample.isFinite] at h0
  have hfslen : (finiteVals samples).length ≠ 0 := by
    simpa [List.length_eq_zero] using hfs
  have hnn := meanSquare_nonneg (finiteVals samples)
  unfold compute_frame_energy
  dsimp only
  rw [if_neg hlen, if_neg hfslen, Real.sqrt_eq_zero']
  constructor
  · intro hle
    have hle' : meanSquare (finiteVals samples) ≤ 0 := by exact_mod_cast hle
    have hz : meanSquare (finiteVals samples) = 0 := le_antisymm hle' hnn
    have hall := (meanSquare_eq_zero_iff _ hfs).1 hz
    intro s hs
    have h1 := hfin s hs
    cases s with
    | val x =>
      have hx : x ∈ finiteVals samples := (mem_finiteVals _ x).2 hs
      rw [hall x hx]
    | nan => simp [Sample.isFinite] at h1
    | posInf => simp [Sample.isFinite] at h1
    | negInf => simp [Sample.isFinite] at h1
  · intro hall
    have hz : meanSquare (finiteVals samples) = 0 := by
      apply (meanSquare_eq_zero_iff _ hfs).2
      intro x hx
      have hmem := (mem_finiteVals samples x).1 hx
      have hx0 := hall _ hmem
      injection hx0
    rw [hz]
    norm_num

/-! ### Helper lemmas about the capture loop -/

theorem run_loud_below (cfg : Config) (cb : ℚ → Bool) (l : List LoopInput) :
    ∀ st : DetectorState,
      st.paused = false →
      (∀ i ∈ l, ∃ e t, i = LoopInput.frame e t ∧ cfg.threshold ≤ e) →
      st.cryFrameCount + l.length < cfg.framesRequired →
      CryDetector.run cfg cb st l =
        ⟨{ st with cryFrameCount := st.cryFrameCount + l.length }, [], [], false⟩ := by
  induction l with
  | nil =>
    intro st hp _ _
    simp [CryDetector.run]
  | cons i rest ih =>
    intro st hp hl hlt
    obtain ⟨e, t, rfl, he⟩ := hl i (List.mem_cons_self i rest)
    simp only [List.length_cons] at hlt
    have hcnt : ¬ cfg.framesRequired ≤ st.cryFrameCount + 1 := by omega
    have harith : st.cryFrameCount + 1 + rest.length = st.cryFrameCount + (rest.length + 1) := by
      omega
    simp only [CryDetector.run, hp, Bool.false_eq_true, if_false, if_pos he, if_neg hcnt]
    rw [ih ⟨false, st.cryFrameCount + 1, st.lastEventTime⟩ rfl
      (fun j hj => hl j (List.mem_cons_of_mem _ hj))
      (by show st.cryFrameCount + 1 + rest.length < cfg.framesRequired; omega)]
    simp [harith]

theorem run_paused (cfg : Config) (cb : ℚ → Bool) (l : List LoopInput) :
    ∀ st : DetectorState, st.paused = true →
      (∀ i ∈ l, ∃ e t, i = LoopInput.frame e t) →
      CryDetector.run cfg cb st l = ⟨st, [], [], false⟩ := by
  induction l with
  | nil =>
    intro st _ _
    simp [CryDetector.run]
  | cons i rest ih =>
    intro st hp hl
    obtain ⟨e, t, rfl⟩ := hl i (List.mem_cons_self i rest)
    simp only [CryDetector.run, hp, if_true]
    exact ih st hp (fun j hj => hl j (List.mem_cons_of_mem _ hj))

theorem run_append (cfg : Config) (cb : ℚ → Bool) (a : List LoopInput) :
    ∀ (st : DetectorState) (b : List LoopInput),
      (CryDetector.run cfg cb st a).crashed = false →
      CryDetector.run cfg cb st (a ++ b) =
        { state := (CryDetector.run cfg cb (CryDetector.run cfg cb st a).state b).state,
          events := (CryDetector.run cfg cb st a).events ++
            (CryDetector.run cfg cb (CryDetector.run cfg cb st a).state b).events,
          remaining := (CryDetector.run cfg cb (CryDetector.run cfg cb st a).state b).remaining,
          crashed := (CryDetector.run cfg cb (CryDetector.run cfg cb st a).state b).crashed } := by
  induction a with
  | nil =>
    intro st b _
    simp [CryDetector.run]
  | cons i rest ih =>
    intro st b hc
    cases i with
    | pauseCmd =>
      simp only [List.cons_append, CryDetector.run] at hc ⊢
      exact ih _ b hc
    | resumeCmd =>
      simp only [List.cons_append, CryDetector.run] at hc ⊢
      exact ih _ b hc
    | frame e t =>
      simp only [List.cons_append, CryDetector.run, List.append_eq] at hc ⊢
      by_cases hpau : st.paused
      · simp only [hpau, if_true] at hc ⊢
        exact ih _ b hc
      · simp only [hpau, Bool.false_eq_true, if_false] at hc ⊢
        by_cases hreq : cfg.framesRequired ≤
            (if cfg.threshold ≤ e then st.cryFrameCount + 1 else 0)
        · simp only [if_pos hreq] at hc ⊢
          by_cases hgate : cfg.eventCooldown ≤ t - st.lastEventTime
          · simp only [if_pos hgate] at hc ⊢
            by_cases hcb : cb e
            · simp only [hcb, if_true] at hc
              exact Bool.noConfusion hc
            · simp only [hcb, Bool.false_eq_true, if_false] at hc ⊢
              rw [ih _ b hc]
              simp
          · simp only [if_neg hgate] at hc ⊢
            exact ih _ b hc
        · simp only [if_neg hreq] at hc ⊢
          exact ih _ b hc

theorem run_qualifying (cfg : Config) (cb : ℚ → Bool)
    (louds : List LoopInput) (st : DetectorState) (hp : st.paused = false)
    (hcnt : st.cryFrameCount = 0)
    (hlen : louds.length + 1 = cfg.framesRequired)
    (hloud : ∀ i ∈ louds, ∃ e t, i = LoopInput.frame e t ∧ cfg.threshold ≤ e)
    (e T : ℚ) (he : cfg.threshold ≤ e) (hcb : cb e = false) :
    CryDetector.run cfg cb st (louds ++ [LoopInput.frame e T]) =
      if cfg.eventCooldown ≤ T - st.lastEventTime then
        ⟨{ st with cryFrameCount := 0, lastEventTime := T }, [e], [], false⟩
      else
        ⟨{ st with cryFrameCount := 0 }, [], [], false⟩ := by
  have hlt : st.cryFrameCount + louds.length < cfg.framesRequired := by omega
  have hc0 : CryDetector.run cfg cb st louds =
      ⟨{ st with cryFrameCount := st.cryFrameCount + louds.length }, [], [], false⟩ :=
    run_loud_below cfg cb louds st hp hloud hlt
  rw [run_append cfg cb louds st _ (by rw [hc0]), hc0]
  have hreach : cfg.framesRequired ≤ st.cryFrameCount + louds.length + 1 := by omega
  have hreach' : cfg.framesRequired ≤ louds.length + 1 := by omega
  by_cases hgate : cfg.eventCooldown ≤ T - st.lastEventTime
  · rw [if_pos hgate]
    simp [CryDetector.run, hp, he, hreach, hreach', hgate, hcb, hcnt]
  · rw [if_neg hgate]
    simp [CryDetector.run, hp, he, hreach, hreach', hgate, hcb, hcnt]

theorem run_pause_cons (cfg : Config) (cb : ℚ → Bool) (st : DetectorState)
    (l : List LoopInput) :
    CryDetector.run cfg cb st (LoopInput.pauseCmd :: l) =
      CryDetector.run cfg cb (CryDetector.pause st) l := by
  simp [CryDetector.run]

theorem run_resume_cons (cfg : Config) (cb : ℚ → Bool) (st : DetectorState)
    (l : List LoopInput) :
    CryDetector.run cfg cb st (LoopInput.resumeCmd :: l) =
      CryDetector.run cfg cb (CryDetector.resume st) l := by
  simp [CryDetector.run]

/-! ### The claims -/

/-- Claim C1, counterexample.  With `frames_required = 1`, `cooldown = 0` and a
callback that raises, the frame at `t = 1` fires and the callback's exception
kills the loop: the subsequent frame at `t = 2` is left unprocessed
(`remaining` is nonempty, no second event), even though fed on its own from
the same start state it would fire.  This refutes "the loop still processes
the subsequent frames of the sequence". -/
theorem c1_counterexample :
    (CryDetector.run ⟨0.12, 1, 0⟩ (fun _ => true) ⟨false, 0, 0⟩
        [LoopInput.frame 0.2 1, LoopInput.frame 0.3 2]).events = [0.2] ∧
    (CryDetector.run ⟨0.12, 1, 0⟩ (fun _ => true) ⟨false, 0, 0⟩
        [LoopInput.frame 0.2 1, LoopInput.frame 0.3 2]).remaining =
      [LoopInput.frame 0.3 2] ∧
    (CryDetector.run ⟨0.12, 1, 0⟩ (fun _ => true) ⟨false, 0, 0⟩
        [LoopInput.frame 0.2 1, LoopInput.frame 0.3 2]).crashed = true ∧
    (CryDetector.run ⟨0.12, 1, 0⟩ (fun _ => true) ⟨false, 0, 0⟩
        [LoopInput.frame 0.3 2]).events = [0.3] := by
  refine ⟨?_, ?_, ?_, ?_⟩ <;> norm_num [CryDetector.run]

/-- Claim C1, amended: when the external callback raises, the exception is
caught by `run`'s outer `except` handler (lines 185-186) — `run` still returns
— but it is not caught at the invocation site: the capture loop terminates at
the crashing frame and the inputs after it are never processed. -/
theorem c1_callback_exception_terminates_loop (cfg : Config) (cb : ℚ → Bool)
    (inputs : List LoopInput) :
    ∀ st : DetectorState,
      (CryDetector.run cfg cb st inputs).crashed = true →
      ∃ pre e t rest, inputs = pre ++ LoopInput.frame e t :: rest ∧ cb e = true ∧
        (CryDetector.run cfg cb st inputs).remaining = rest := by
  induction inputs with
  | nil =>
    intro st hc
    simp [CryDetector.run] at hc
  | cons i rest' ih =>
    intro st hc
    cases i with
    | pauseCmd =>
      simp only [CryDetector.run] at hc ⊢
      obtain ⟨pre, e, t, rest, heq, hcb, hrem⟩ := ih _ hc
      exact ⟨LoopInput.pauseCmd :: pre, e, t, rest, by rw [heq, List.cons_append], hcb, hrem⟩
    | resumeCmd =>
      simp only [CryDetector.run] at hc ⊢
      obtain ⟨pre, e, t, rest, heq, hcb, hrem⟩ := ih _ hc
      exact ⟨LoopInput.resumeCmd :: pre, e, t, rest, by rw [heq, List.cons_append], hcb, hrem⟩
    | frame e0 t0 =>
      simp only [CryDetector.run] at hc ⊢
      by_cases hpau : st.paused
      · simp only [hpau, if_true] at hc ⊢
        obtain ⟨pre, e, t, rest, heq, hcb, hrem⟩ := ih _ hc
        exact ⟨LoopInput.frame e0 t0 :: pre, e, t, rest, by rw [heq, List.cons_append], hcb, hrem⟩
      · simp only [hpau, Bool.false_eq_true, if_false] at hc ⊢
        by_cases hreq : cfg.framesRequired ≤
            (if cfg.threshold ≤ e0 then st.cryFrameCount + 1 else 0)
        · simp only [if_pos hreq] at hc ⊢
          by_cases hgate : cfg.eventCooldown ≤ t0 - st.lastEventTime
          · simp only [if_pos hgate] at hc ⊢
            by_cases hcb0 : cb e0
            · simp only [hcb0, if_true] at hc ⊢
              exact ⟨[], e0, t0, rest', rfl, hcb0, rfl⟩
            · simp only [hcb0, Bool.false_eq_true, if_false] at hc ⊢
              obtain ⟨pre, e, t, rest, heq, hcb, hrem⟩ := ih _ hc
              exact ⟨LoopInput.frame e0 t0 :: pre, e, t, rest,
                by rw [heq, List.cons_append], hcb, hrem⟩
          · simp only [if_neg hgate] at hc ⊢
            obtain ⟨pre, e, t, rest, heq, hcb, hrem⟩ := ih _ hc
            exact ⟨LoopInput.frame e0 t0 :: pre, e, t, rest,
              by rw [heq, List.cons_append], hcb, hrem⟩
        · simp only [if_neg hreq] at hc ⊢
          obtain ⟨pre, e, t, rest, heq, hcb, hrem⟩ := ih _ hc
          exact ⟨LoopInput.frame e0 t0 :: pre, e, t, rest,
            by rw [heq, List.cons_append], hcb, hrem⟩

/-- Witness for the amended C1 theorem at a concrete crashing input. -/
theorem c1_callback_exception_terminates_loop_witness :
    ∃ pre e t rest,
      ([LoopInput.frame 0.2 1, LoopInput.frame 0.3 2] : List LoopInput) =
        pre ++ LoopInput.frame e t :: rest ∧ (fun _ : ℚ => true) e = true ∧
      (CryDetector.run ⟨0.12, 1, 0⟩ (fun _ => true) ⟨false, 0, 0⟩
          [LoopInput.frame 0.2 1, LoopInput.frame 0.3 2]).remaining = rest :=
  c1_callback_exception_terminates_loop ⟨0.12, 1, 0⟩ (fun _ => true)
    [LoopInput.frame 0.2 1, LoopInput.frame 0.3 2] ⟨false, 0, 0⟩
    (by norm_num [CryDetector.run])

/-- Claim C2, counterexample.  A frame of only non-finite samples has computed
energy `0.0`; with `threshold = 0` the comparison `energy >= threshold` is
`0 >= 0`, which is true, so the frame DOES count as loud: the counter is
incremented from 0 to 1, refuting "does not increment consecutive_loud_frames". -/
theorem c2_counterexample :
    compute_frame_energy [Sample.nan, Sample.posInf] = 0 ∧
    (CryDetector.run ⟨0, 3, 5⟩ (fun _ => false) ⟨false, 0, 0⟩
        [LoopInput.frame 0 7]).state.cryFrameCount = 1 := by
  constructor
  · simp [compute_frame_energy, finiteVals]
  · norm_num [CryDetector.run]

/-- Claim C2, amended: with `threshold = 0`, a frame composed entirely of
non-finite samples has computed energy `0.0` and DOES count as a loud frame —
processing it increments `consecutive_loud_frames`, because the comparison
used is `>=` and `0 >= 0` holds. -/
theorem c2_zero_threshold_nonfinite_counts_loud (cfg : Config) (cb : ℚ → Bool)
    (st : DetectorState) (samples : List Sample)
    (hnf : ∀ s ∈ samples, s.isFinite = false) (now : ℚ)
    (hthr : cfg.threshold = 0) (hp : st.paused = false)
    (hlt : st.cryFrameCount + 1 < cfg.framesRequired) :
    compute_frame_energy samples = 0 ∧
    (CryDetector.run cfg cb st [LoopInput.frame 0 now]).state.cryFrameCount =
      st.cryFrameCount + 1 := by
  refine ⟨compute_frame_energy_nonfinite samples hnf, ?_⟩
  have hthr' : cfg.threshold ≤ 0 := le_of_eq hthr
  have hnreq : ¬ cfg.framesRequired ≤ st.cryFrameCount + 1 := by omega
  simp [CryDetector.run, hp, hthr', hnreq]

/-- Witness for the amended C2 theorem at a concrete input. -/
theorem c2_zero_threshold_nonfinite_counts_loud_witness :
    compute_frame_energy [Sample.nan] = 0 ∧
    (CryDetector.run ⟨0, 3, 5⟩ (fun _ => false) ⟨false, 0, 0⟩
        [LoopInput.frame 0 7]).state.cryFrameCount = 0 + 1 :=
  c2_zero_threshold_nonfinite_counts_loud ⟨0, 3, 5⟩ (fun _ => false) ⟨false, 0, 0⟩
    [Sample.nan] (by decide) 7 rfl rfl (by norm_num)

/-- Claim C3, counterexample.  With the initial detector state
(`consecutive_loud_frames = 0`, `last_event_time = 0.0`) and the literal times
`t = [0,1,2,3]`, the qualifying run completing at `t = 2` is suppressed by the
cooldown test (`2 - 0.0 >= 5` is false), so NO event fires — refuting
"produces exactly one fired event". -/
theorem c3_scenario_counterexample :
    (CryDetector.run ⟨0.12, 3, 5⟩ (fun _ => false) ⟨false, 0, 0⟩
        [LoopInput.frame 0.2 0, LoopInput.frame 0.2 1, LoopInput.frame 0.2 2,
          LoopInput.frame 0.05 3]).events = [] := by
  norm_num [CryDetector.run]

/-- Claim C3, amended: the scenario holds once the initial `last_event_time`
is taken far enough in the past for the cooldown to have expired (as it is in
real operation, where `time.time()` is large): starting from
`consecutive_loud_frames = 0`, `last_event_time = -5.0`, the energies
`[0.2, 0.2, 0.2, 0.05]` at `t = [0,1,2,3]` produce exactly one fired event,
carrying energy `0.2`, while processing the frame at `t = 2` (so
`last_event_time` ends at `2`), and the counter ends at `0`. -/
theorem c3_scenario_amended :
    CryDetector.run ⟨0.12, 3, 5⟩ (fun _ => false) ⟨false, 0, -5⟩
        [LoopInput.frame 0.2 0, LoopInput.frame 0.2 1, LoopInput.frame 0.2 2,
          LoopInput.frame 0.05 3] =
      ⟨⟨false, 0, 2⟩, [0.2], [], false⟩ := by
  norm_num [CryDetector.run]

/-- Claim C4: with `cooldown = 5` and an event just fired at `t = 0`
(counter reset to 0, `last_event_time = 0`), a qualifying run of
`frames_required` consecutive loud frames completing at `t = 2` fires no
second event (`2 - 0 >= 5` fails), while a qualifying run completing at
`t = 6` does fire (`6 - 0 >= 5` holds). -/
theorem c4_cooldown_gate (cfg : Config) (cb : ℚ → Bool)
    (hcool : cfg.eventCooldown = 5) (louds : List LoopInput)
    (hlen : louds.length + 1 = cfg.framesRequired)
    (hloud : ∀ i ∈ louds, ∃ e t, i = LoopInput.frame e t ∧ cfg.threshold ≤ e)
    (e2 e6 : ℚ) (he2 : cfg.threshold ≤ e2) (he6 : cfg.threshold ≤ e6)
    (hcb2 : cb e2 = false) (hcb6 : cb e6 = false) :
    (CryDetector.run cfg cb ⟨false, 0, 0⟩ (louds ++ [LoopInput.frame e2 2])).events = [] ∧
    (CryDetector.run cfg cb ⟨false, 0, 0⟩ (louds ++ [LoopInput.frame e6 6])).events = [e6] := by
  constructor
  · rw [run_qualifying cfg cb louds ⟨false, 0, 0⟩ rfl rfl hlen hloud e2 2 he2 hcb2]
    rw [if_neg (by rw [hcool]; norm_num)]
  · rw [run_qualifying cfg cb louds ⟨false, 0, 0⟩ rfl rfl hlen hloud e6 6 he6 hcb6]
    rw [if_pos (by rw [hcool]; norm_num)]

/-- Witness for C4 at a concrete qualifying run. -/
theorem c4_cooldown_gate_witness :
    (CryDetector.run ⟨0.12, 3, 5⟩ (fun _ => false) ⟨false, 0, 0⟩
        ([LoopInput.frame 0.2 0, LoopInput.frame 0.2 1] ++
          [LoopInput.frame 0.2 2])).events = [] ∧
    (CryDetector.run ⟨0.12, 3, 5⟩ (fun _ => false) ⟨false, 0, 0⟩
        ([LoopInput.frame 0.2 0, LoopInput.frame 0.2 1] ++
          [LoopInput.frame 0.2 6])).events = [0.2] :=
  c4_cooldown_gate ⟨0.12, 3, 5⟩ (fun _ => false) rfl
    [LoopInput.frame 0.2 0, LoopInput.frame 0.2 1] rfl
    (by
      intro i hi
      rcases List.mem_cons.1 hi with rfl | hi
      · exact ⟨0.2, 0, rfl, by norm_num⟩
      rcases List.mem_cons.1 hi with rfl | hi
      · exact ⟨0.2, 1, rfl, by norm_num⟩
      · exact absurd hi (List.not_mem_nil i))
    0.2 0.2 (by norm_num) (by norm_num) rfl rfl

/-- Claim C5: whenever the updated counter reaches `frames_required` while
processing a frame (and the callback, if invoked, returns normally), the
counter is reset to 0 in that same step, whether the cooldown let the event
fire or suppressed it (the reset at line 181 sits outside the cooldown `if`). -/
theorem c5_counter_always_reset (cfg : Config) (cb : ℚ → Bool) (st : DetectorState)
    (e t : ℚ) (hp : st.paused = false) (hcb : cb e = false)
    (hreach : cfg.framesRequired ≤ if cfg.threshold ≤ e then st.cryFrameCount + 1 else 0) :
    (CryDetector.run cfg cb st [LoopInput.frame e t]).state.cryFrameCount = 0 := by
  by_cases hgate : cfg.eventCooldown ≤ t - st.lastEventTime
  · simp [CryDetector.run, hp, hreach, hgate, hcb]
  · simp [CryDetector.run, hp, hreach, hgate, hcb]

/-- Witness for C5: both the fired case and the suppressed case at concrete
inputs. -/
theorem c5_counter_always_reset_witness :
    (CryDetector.run ⟨0.12, 3, 5⟩ (fun _ => false) ⟨false, 2, 0⟩
        [LoopInput.frame 0.2 10]).state.cryFrameCount = 0 ∧
    (CryDetector.run ⟨0.12, 3, 5⟩ (fun _ => false) ⟨false, 2, 0⟩
        [LoopInput.frame 0.2 1]).state.cryFrameCount = 0 :=
  ⟨c5_counter_always_reset ⟨0.12, 3, 5⟩ (fun _ => false) ⟨false, 2, 0⟩ 0.2 10
      rfl rfl (by norm_num),
   c5_counter_always_reset ⟨0.12, 3, 5⟩ (fun _ => false) ⟨false, 2, 0⟩ 0.2 1
      rfl rfl (by norm_num)⟩

/-- Claim C6: from a state with counter 0, feeding exactly
`frames_required - 1` loud frames followed by one quiet frame fires no event
and leaves the counter at 0. -/
theorem c6_short_run_never_fires (cfg : Config) (cb : ℚ → Bool) (st : DetectorState)
    (hreq : 1 ≤ cfg.framesRequired) (hp : st.paused = false)
    (hcnt : st.cryFrameCount = 0)
    (louds : List LoopInput) (hlen : louds.length = cfg.framesRequired - 1)
    (hloud : ∀ i ∈ louds, ∃ e t, i = LoopInput.frame e t ∧ cfg.threshold ≤ e)
    (q tq : ℚ) (hq : q < cfg.threshold) :
    (CryDetector.run cfg cb st (louds ++ [LoopInput.frame q tq])).events = [] ∧
    (CryDetector.run cfg cb st (louds ++ [LoopInput.frame q tq])).state.cryFrameCount = 0 := by
  have hlt : st.cryFrameCount + louds.length < cfg.framesRequired := by omega
  have hc0 := run_loud_below cfg cb louds st hp hloud hlt
  rw [run_append cfg cb louds st [LoopInput.frame q tq] (by rw [hc0]), hc0]
  have hnq : ¬ cfg.threshold ≤ q := not_le.2 hq
  have hz : ¬ cfg.framesRequired ≤ 0 := by omega
  constructor <;> simp [CryDetector.run, hp, hnq, hz]

/-- Witness for C6 at `frames_required = 3`: two loud frames then a quiet one. -/
theorem c6_short_run_never_fires_witness :
    (CryDetector.run ⟨0.12, 3, 5⟩ (fun _ => false) ⟨false, 0, 0⟩
        ([LoopInput.frame 0.2 0, LoopInput.frame 0.2 1] ++
          [LoopInput.frame 0.05 2])).events = [] ∧
    (CryDetector.run ⟨0.12, 3, 5⟩ (fun _ => false) ⟨false, 0, 0⟩
        ([LoopInput.frame 0.2 0, LoopInput.frame 0.2 1] ++
          [LoopInput.frame 0.05 2])).state.cryFrameCount = 0 :=
  c6_short_run_never_fires ⟨0.12, 3, 5⟩ (fun _ => false) ⟨false, 0, 0⟩
    (by norm_num) rfl rfl [LoopInput.frame 0.2 0, LoopInput.frame 0.2 1] rfl
    (by
      intro i hi
      rcases List.mem_cons.1 hi with rfl | hi
      · exact ⟨0.2, 0, rfl, by norm_num⟩
      rcases List.mem_cons.1 hi with rfl | hi
      · exact ⟨0.2, 1, rfl, by norm_num⟩
      · exact absurd hi (List.not_mem_nil i))
    0.05 2 (by norm_num)

/-- Claim C7: `compute_frame_energy` is total (the embedding is a total
function); its result is always `>= 0`; an empty frame yields `0.0`; a frame
entirely composed of non-finite samples yields `0.0` (the non-finite samples
are discarded, not zeroed); and for a finite non-empty frame the energy is 0
iff every sample is 0. -/
theorem c7_energy_total_function (samples : List Sample) :
    0 ≤ compute_frame_energy samples ∧
    compute_frame_energy ([] : List Sample) = 0 ∧
    ((∀ s ∈ samples, s.isFinite = false) → compute_frame_energy samples = 0) ∧
    ((∀ s ∈ samples, s.isFinite = true) → samples ≠ [] →
      (compute_frame_energy samples = 0 ↔ ∀ s ∈ samples, s = Sample.val 0)) :=
  ⟨compute_frame_energy_nonneg samples, by simp [compute_frame_energy],
    compute_frame_energy_nonfinite samples, compute_frame_energy_eq_zero_iff samples⟩

/-- Witness for C7 at concrete frames. -/
theorem c7_energy_total_function_witness :
    (compute_frame_energy [Sample.val 0] = 0 ↔
      ∀ s ∈ [Sample.val 0], s = Sample.val 0) ∧
    compute_frame_energy [Sample.nan] = 0 :=
  ⟨(c7_energy_total_function [Sample.val 0]).2.2.2 (by decide) (by decide),
    (c7_energy_total_function [Sample.nan]).2.2.1 (by decide)⟩

/-- Claim C8, counterexample.  `normalise_audio` divides by
`np.iinfo(dtype).max`; for int16 the minimum sample `-32768` maps to
`-32768/32767`, which is strictly below `-1.0` — so a frame of all-minimum
samples does NOT normalise to all `-1.0`, and not every output lies in
`[-1.0, 1.0]`. -/
theorem c8_counterexample :
    normalise_audio 16 [-32768] = [-(32768 : ℚ) / 32767] ∧
    (-(32768 : ℚ) / 32767) < -1 ∧
    normalise_audio 16 [-32768] ≠ [(-1 : ℚ)] := by
  refine ⟨by norm_num [normalise_audio, iinfo_max], by norm_num, ?_⟩
  norm_num [normalise_audio, iinfo_max]

/-- Claim C8, amended: for a signed `w`-bit integer dtype (`w >= 2`) the code
divides by the maximum representable value `2^(w-1) - 1`, so a frame of
all-maximum samples normalises to all `1.0`, a frame of all-minimum samples
normalises to all `min/max = -(2^(w-1))/(2^(w-1)-1)` — which is strictly
below `-1.0`, not `-1.0` — and every in-range sample lands in
`[min/max, 1.0]` (a slightly larger interval than `[-1.0, 1.0]` on the left). -/
theorem normalise_audio_mem (w : ℕ) (data : List ℤ) :
    ∀ q ∈ normalise_audio w data,
      ∃ z ∈ data, q = (z : ℚ) / ((iinfo_max w : ℤ) : ℚ) := by
  induction data with
  | nil =>
    intro q hq
    simp [normalise_audio] at hq
  | cons a rest ih =>
    intro q hq
    rw [show normalise_audio w (a :: rest) =
        ((a : ℚ) / ((iinfo_max w : ℤ) : ℚ)) :: normalise_audio w rest from rfl,
      List.mem_cons] at hq
    rcases hq with rfl | h
    · exact ⟨a, List.mem_cons_self _ _, rfl⟩
    · obtain ⟨z, hz, hzq⟩ := ih q h
      exact ⟨z, List.mem_cons_of_mem _ hz, hzq⟩

theorem c8_normalise_bounds (w : ℕ) (hw : 2 ≤ w) (data : List ℤ)
    (hrange : ∀ z ∈ data, iinfo_min w ≤ z ∧ z ≤ iinfo_max w) :
    (∀ q ∈ normalise_audio w data,
        ((iinfo_min w : ℤ) : ℚ) / ((iinfo_max w : ℤ) : ℚ) ≤ q ∧ q ≤ 1) ∧
    ((∀ z ∈ data, z = iinfo_max w) → ∀ q ∈ normalise_audio w data, q = 1) ∧
    ((∀ z ∈ data, z = iinfo_min w) →
      ∀ q ∈ normalise_audio w data,
        q = ((iinfo_min w : ℤ) : ℚ) / ((iinfo_max w : ℤ) : ℚ)) ∧
    ((iinfo_min w : ℤ) : ℚ) / ((iinfo_max w : ℤ) : ℚ) < -1 := by
  have hk : 1 ≤ w - 1 := by omega
  have h2k : (2 : ℤ) ≤ 2 ^ (w - 1) := by
    calc (2 : ℤ) = 2 ^ 1 := (pow_one 2).symm
    _ ≤ 2 ^ (w - 1) := pow_le_pow_right₀ (by norm_num) hk
  have hMpos : (0 : ℤ) < iinfo_max w := by
    unfold iinfo_max
    linarith
  have hMposQ : (0 : ℚ) < ((iinfo_max w : ℤ) : ℚ) := by exact_mod_cast hMpos
  refine ⟨?_, ?_, ?_, ?_⟩
  · intro q hq
    obtain ⟨z, hz, rfl⟩ := normalise_audio_mem w data q hq
    obtain ⟨hlo, hhi⟩ := hrange z hz
    constructor
    · rw [div_le_div_iff_of_pos_right hMposQ]
      exact_mod_cast hlo
    · rw [div_le_one hMposQ]
      exact_mod_cast hhi
  · intro hall q hq
    obtain ⟨z, hz, rfl⟩ := normalise_audio_mem w data q hq
    rw [hall z hz]
    exact div_self hMposQ.ne'
  · intro hall q hq
    obtain ⟨z, hz, rfl⟩ := normalise_audio_mem w data q hq
    rw [hall z hz]
  · rw [div_lt_iff₀ hMposQ]
    have h : iinfo_min w < -1 * iinfo_max w := by
      unfold iinfo_min iinfo_max
      linarith
    exact_mod_cast h

/-- Witness for the amended C8 theorem at int16 with in-range samples. -/
theorem c8_normalise_bounds_witness :
    (∀ q ∈ normalise_audio 16 [-32768, 32767, 0],
        ((iinfo_min 16 : ℤ) : ℚ) / ((iinfo_max 16 : ℤ) : ℚ) ≤ q ∧ q ≤ 1) ∧
    ((iinfo_min 16 : ℤ) : ℚ) / ((iinfo_max 16 : ℤ) : ℚ) < -1 :=
  ⟨(c8_normalise_bounds 16 (by norm_num) [-32768, 32767, 0]
      (by
        intro z hz
        rcases List.mem_cons.1 hz with rfl | hz
        · exact ⟨by norm_num [iinfo_min], by norm_num [iinfo_max]⟩
        rcases List.mem_cons.1 hz with rfl | hz
        · exact ⟨by norm_num [iinfo_min], by norm_num [iinfo_max]⟩
        rcases List.mem_cons.1 hz with rfl | hz
        · exact ⟨by norm_num [iinfo_min], by norm_num [iinfo_max]⟩
        · exact absurd hz (List.not_mem_nil z))).1,
   (c8_normalise_bounds 16 (by norm_num) [-32768, 32767, 0]
      (by
        intro z hz
        rcases List.mem_cons.1 hz with rfl | hz
        · exact ⟨by norm_num [iinfo_min], by norm_num [iinfo_max]⟩
        rcases List.mem_cons.1 hz with rfl | hz
        · exact ⟨by norm_num [iinfo_min], by norm_num [iinfo_max]⟩
        rcases List.mem_cons.1 hz with rfl | hz
        · exact ⟨by norm_num [iinfo_min], by norm_num [iinfo_max]⟩
        · exact absurd hz (List.not_mem_nil z))).2.2.2⟩

/-- Claim C9: while `paused = true`, any number of frames of any energy is
drained from the queue and discarded: the state (counter and
`last_event_time`) is unchanged, no event fires, nothing crashes, and no
frame is left queued for re-evaluation (`remaining = []`). -/
theorem c9_paused_frames_discarded (cfg : Config) (cb : ℚ → Bool)
    (l : List LoopInput) (st : DetectorState) (hp : st.paused = true)
    (hframes : ∀ i ∈ l, ∃ e t, i = LoopInput.frame e t) :
    CryDetector.run cfg cb st l = ⟨st, [], [], false⟩ :=
  run_paused cfg cb l st hp hframes

/-- Witness for C9: two loud frames fed while paused. -/
theorem c9_paused_frames_discarded_witness :
    CryDetector.run ⟨0.12, 3, 5⟩ (fun _ => false) ⟨true, 1, 0⟩
        [LoopInput.frame 0.9 1, LoopInput.frame 0.9 2] =
      ⟨⟨true, 1, 0⟩, [], [], false⟩ :=
  c9_paused_frames_discarded ⟨0.12, 3, 5⟩ (fun _ => false)
    [LoopInput.frame 0.9 1, LoopInput.frame 0.9 2] ⟨true, 1, 0⟩ rfl
    (by
      intro i hi
      rcases List.mem_cons.1 hi with rfl | hi
      · exact ⟨0.9, 1, rfl⟩
      rcases List.mem_cons.1 hi with rfl | hi
      · exact ⟨0.9, 2, rfl⟩
      · exact absurd hi (List.not_mem_nil i))

/-- Claim C10: `pause()` and `resume()` touch only the `paused` flag —
`consecutive_loud_frames` and `last_event_time` are unchanged by both — and
frames processed while paused leave the counters unchanged too, so a run of
loud frames interrupted by a pause/resume cycle keeps its accumulated count:
feeding `louds1`, then `pause`, then any frames, then `resume`, then `louds2`
accumulates `louds1.length + louds2.length` onto the counter. -/
theorem c10_pause_resume_touch_only_paused (cfg : Config) (cb : ℚ → Bool)
    (st : DetectorState) (hp : st.paused = false)
    (louds1 mid louds2 : List LoopInput)
    (h1 : ∀ i ∈ louds1, ∃ e t, i = LoopInput.frame e t ∧ cfg.threshold ≤ e)
    (hmid : ∀ i ∈ mid, ∃ e t, i = LoopInput.frame e t)
    (h2 : ∀ i ∈ louds2, ∃ e t, i = LoopInput.frame e t ∧ cfg.threshold ≤ e)
    (hlt : st.cryFrameCount + louds1.length + louds2.length < cfg.framesRequired) :
    (∀ s : DetectorState, (CryDetector.pause s).cryFrameCount = s.cryFrameCount ∧
        (CryDetector.pause s).lastEventTime = s.lastEventTime ∧
        (CryDetector.resume s).cryFrameCount = s.cryFrameCount ∧
        (CryDetector.resume s).lastEventTime = s.lastEventTime) ∧
    CryDetector.run cfg cb st
        (louds1 ++ LoopInput.pauseCmd :: (mid ++ LoopInput.resumeCmd :: louds2)) =
      ⟨{ st with cryFrameCount := st.cryFrameCount + louds1.length + louds2.length },
        [], [], false⟩ := by
  refine ⟨fun s => ⟨rfl, rfl, rfl, rfl⟩, ?_⟩
  have hlt1 : st.cryFrameCount + louds1.length < cfg.framesRequired := by omega
  have hA := run_loud_below cfg cb louds1 st hp h1 hlt1
  rw [run_append cfg cb louds1 st _ (by rw [hA]), hA]
  rw [run_pause_cons]
  have hB := run_paused cfg cb mid
    (CryDetector.pause ⟨st.paused, st.cryFrameCount + louds1.length, st.lastEventTime⟩)
    rfl hmid
  rw [run_append cfg cb mid _ _ (by rw [hB]), hB]
  rw [run_resume_cons]
  rw [run_loud_below cfg cb louds2
    (CryDetector.resume (CryDetector.pause
      ⟨st.paused, st.cryFrameCount + louds1.length, st.lastEventTime⟩))
    rfl h2
    (by
      show st.cryFrameCount + louds1.length + louds2.length < cfg.framesRequired
      omega)]
  simp [CryDetector.pause, CryDetector.resume, hp]

/-- Witness for C10: one loud frame, pause, one loud frame while paused,
resume, one more loud frame; the counter reaches 2. -/
theorem c10_pause_resume_touch_only_paused_witness :
    ((CryDetector.pause ⟨false, 4, 7⟩).cryFrameCount =
        (⟨false, 4, 7⟩ : DetectorState).cryFrameCount ∧
      (CryDetector.pause ⟨false, 4, 7⟩).lastEventTime =
        (⟨false, 4, 7⟩ : DetectorState).lastEventTime ∧
      (CryDetector.resume ⟨false, 4, 7⟩).cryFrameCount =
        (⟨false, 4, 7⟩ : DetectorState).cryFrameCount ∧
      (CryDetector.resume ⟨false, 4, 7⟩).lastEventTime =
        (⟨false, 4, 7⟩ : DetectorState).lastEventTime) ∧
    CryDetector.run ⟨0.12, 3, 5⟩ (fun _ => false) ⟨false, 0, 0⟩
        ([LoopInput.frame 0.2 0] ++ LoopInput.pauseCmd ::
          ([LoopInput.frame 0.9 1] ++ LoopInput.resumeCmd :: [LoopInput.frame 0.2 2])) =
      ⟨⟨false, 0 + 1 + 1, 0⟩, [], [], false⟩ :=
  ⟨(c10_pause_resume_touch_only_paused ⟨0.12, 3, 5⟩ (fun _ => false) ⟨false, 0, 0⟩
      rfl [LoopInput.frame 0.2 0] [LoopInput.frame 0.9 1] [LoopInput.frame 0.2 2]
      (by
        intro i hi
        rcases List.mem_cons.1 hi with rfl | hi
        · exact ⟨0.2, 0, rfl, by norm_num⟩
        · exact absurd hi (List.not_mem_nil i))
      (by
        intro i hi
        rcases List.mem_cons.1 hi with rfl | hi
        · exact ⟨0.9, 1, rfl⟩
        · exact absurd hi (List.not_mem_nil i))
      (by
        intro i hi
        rcases List.mem_cons.1 hi with rfl | hi
        · exact ⟨0.2, 2, rfl, by norm_num⟩
        · exact absurd hi (List.not_mem_nil i))
      (by norm_num)).1 ⟨false, 4, 7⟩,
   (c10_pause_resume_touch_only_paused ⟨0.12, 3, 5⟩ (fun _ => false) ⟨false, 0, 0⟩
      rfl [LoopInput.frame 0.2 0] [LoopInput.frame 0.9 1] [LoopInput.frame 0.2 2]
      (by
        intro i hi
        rcases List.mem_cons.1 hi with rfl | hi
        · exact ⟨0.2, 0, rfl, by norm_num⟩
        · exact absurd hi (List.not_mem_nil i))
      (by
        intro i hi
        rcases List.mem_cons.1 hi with rfl | hi
        · exact ⟨0.9, 1, rfl⟩
        · exact absurd hi (List.not_mem_nil i))
      (by
        intro i hi
        rcases List.mem_cons.1 hi with rfl | hi
        · exact ⟨0.2, 2, rfl, by norm_num⟩
        · exact absurd hi (List.not_mem_nil i))
      (by norm_num)).2⟩

end BabyMonitor
